import Mathlib

/-!
Shallow embedding of the clique-collection core of the teriyaki repository
(src/models/clique.rs) and of its triple parser (src/parser/triple.rs),
together with theorems settling the specification claims about them.

Rust `HashMap<u32, usize>` is modelled as an association list with
insert-replaces-key semantics, so keys stay unique; `VecDeque<usize>` is a
list used FIFO (pop at the head, push at the tail); `Vec<Clique>` is a
`List Clique`.  Operations that can panic in Rust (`unwrap` on a missing
key, out-of-bounds indexing, an explicit `panic!`) return `Option`:
`none` models the abort.
-/

/-- Lookup in the association-list model of `HashMap<u32, usize>`. -/
def hmGet (m : List (Nat × Nat)) (k : Nat) : Option Nat :=
  (m.find? (fun p => p.1 == k)).map (fun p => p.2)

/-- Insert in the association-list model of `HashMap::insert`: replaces any
existing entry for the key. -/
def hmInsert (m : List (Nat × Nat)) (k v : Nat) : List (Nat × Nat) :=
  (k, v) :: m.filter (fun p => p.1 ≠ k)

/-- Removal in the association-list model of `HashMap::remove`. -/
def hmRemove (m : List (Nat × Nat)) (k : Nat) : List (Nat × Nat) :=
  m.filter (fun p => p.1 ≠ k)

/-- Model of `HashMap::contains_key`. -/
def hmContains (m : List (Nat × Nat)) (k : Nat) : Bool :=
  (hmGet m k).isSome

/-- How many entries the lookup holds for key `k` (for the bijection claim:
the map invariantly holds at most one). -/
def hmCount (m : List (Nat × Nat)) (k : Nat) : Nat :=
  m.countP (fun p => p.1 == k)

/-- Model of `Clique` from src/models/clique.rs: a predicate set and a node set,
both stored as vectors. -/
structure Clique where
  preds : List Nat
  nodes : List Nat
deriving DecidableEq, Repr

/-- Model of `Clique::remove_node`: `self.nodes.retain(|n| *n != *node)`. -/
def Clique.remove_node (c : Clique) (node : Nat) : Clique :=
  { c with nodes := c.nodes.filter (fun n => n ≠ node) }

/-- Model of `Clique::node_intersection`: all nodes of `self` also contained in `c`,
in `self`'s order. -/
def Clique.node_intersection (c d : Clique) : List Nat :=
  c.nodes.filter (fun n => d.nodes.contains n)

/-- Model of `CliqueCollection` from src/models/clique.rs. -/
structure CliqueCollection where
  cliques : List Clique
  queue : List Nat
  index_map : List (Nat × Nat)
deriving DecidableEq, Repr

namespace CliqueCollection

/-- Model of `CliqueCollection::new`: only the distinguished empty clique, at index 0. -/
def new : CliqueCollection :=
  { cliques := [⟨[], []⟩], queue := [], index_map := [] }

/-- Model of `CliqueCollection::set_index`: point every given pred and node at `index`. -/
def set_index (cc : CliqueCollection) (preds nodes : List Nat) (index : Nat) :
    CliqueCollection :=
  { cc with
    index_map :=
      nodes.foldl (fun m n => hmInsert m n index)
        (preds.foldl (fun m p => hmInsert m p index) cc.index_map) }

/-- Model of `CliqueCollection::new_clique`: reuse a free-list slot (FIFO) if one
exists, else grow the backing vector. -/
def new_clique (cc : CliqueCollection) (preds nodes : List Nat) :
    CliqueCollection :=
  match cc.queue with
  | [] =>
    set_index
      { cc with cliques := cc.cliques ++ [⟨preds, nodes⟩] }
      preds nodes cc.cliques.length
  | index :: rest =>
    set_index
      { cc with cliques := cc.cliques.set index ⟨preds, nodes⟩, queue := rest }
      preds nodes index

/-- Model of `CliqueCollection::contains_pred`. -/
def contains_pred (cc : CliqueCollection) (pred : Nat) : Bool :=
  hmContains cc.index_map pred

/-- Model of `CliqueCollection::contains_node`. -/
def contains_node (cc : CliqueCollection) (node : Nat) : Bool :=
  hmContains cc.index_map node

/-- Model of `CliqueCollection::get_index` (`unwrap` on a missing key modelled as
`none`). -/
def get_index (cc : CliqueCollection) (id_ : Nat) : Option Nat :=
  hmGet cc.index_map id_

/-- Model of `CliqueCollection::get_clique_by_index` (out-of-bounds modelled as
`none`). -/
def get_clique_by_index (cc : CliqueCollection) (index : Nat) : Option Clique :=
  cc.cliques[index]?

/-- Model of `CliqueCollection::get_clique_by_node`. -/
def get_clique_by_node (cc : CliqueCollection) (id_ : Nat) : Option Clique :=
  (cc.get_index id_).bind (fun i => cc.cliques[i]?)

/-- Model of `CliqueCollection::clique_len`: number of nodes of the clique at `index`. -/
def clique_len (cc : CliqueCollection) (index : Nat) : Option Nat :=
  (cc.cliques[index]?).map (fun c => c.nodes.length)

/-- Model of `CliqueCollection::get_nodes`. -/
def get_nodes (cc : CliqueCollection) (index : Nat) : Option (List Nat) :=
  (cc.cliques[index]?).map (fun c => c.nodes)

/-- Model of `CliqueCollection::in_same_clique` (both ids `unwrap`ed). -/
def in_same_clique (cc : CliqueCollection) (a b : Nat) : Option Bool :=
  match cc.get_index a, cc.get_index b with
  | some i, some j => some (i == j)
  | _, _ => none

/-- Model of `CliqueCollection::in_empty_clique`. -/
def in_empty_clique (cc : CliqueCollection) (node : Nat) : Option Bool :=
  (cc.get_index node).map (fun i => i == 0)

/-- Model of `CliqueCollection::add_pred_to_clique`: panics (`none`) when `node` sits
in the empty clique. -/
def add_pred_to_clique (cc : CliqueCollection) (node pred : Nat) :
    Option CliqueCollection :=
  match cc.get_index node with
  | none => none
  | some index =>
    if index = 0 then none
    else
      match cc.cliques[index]? with
      | none => none
      | some c =>
        some { cc with
          cliques := cc.cliques.set index { c with preds := c.preds ++ [pred] },
          index_map := hmInsert cc.index_map pred index }

/-- Model of `CliqueCollection::add_node_to_clique`: append `node` to the clique of
`target` and record it in the lookup. -/
def add_node_to_clique (cc : CliqueCollection) (node target : Nat) :
    Option CliqueCollection :=
  match cc.get_index target with
  | none => none
  | some index =>
    match cc.cliques[index]? with
    | none => none
    | some c =>
      some { cc with
        cliques := cc.cliques.set index { c with nodes := c.nodes ++ [node] },
        index_map := hmInsert cc.index_map node index }

/-- Model of `CliqueCollection::add_node_to_empty_clique`. -/
def add_node_to_empty_clique (cc : CliqueCollection) (node : Nat) :
    Option CliqueCollection :=
  match cc.cliques[0]? with
  | none => none
  | some c =>
    some { cc with
      cliques := cc.cliques.set 0 { c with nodes := c.nodes ++ [node] },
      index_map := hmInsert cc.index_map node 0 }

/-- Model of `CliqueCollection::remove_clique_by_index`: empty both sets and push the
index onto the free list. -/
def remove_clique_by_index (cc : CliqueCollection) (index : Nat) :
    Option CliqueCollection :=
  match cc.cliques[index]? with
  | none => none
  | some _ =>
    some { cc with
      cliques := cc.cliques.set index ⟨[], []⟩,
      queue := cc.queue ++ [index] }

/-- Model of `CliqueCollection::merge_cliques`: merge `b`'s clique into `a`'s. -/
def merge_cliques (cc : CliqueCollection) (a b : Nat) : Option CliqueCollection :=
  match cc.get_index a, cc.get_index b with
  | some a_index, some b_index =>
    match cc.cliques[b_index]? with
    | none => none
    | some b_clique =>
      let cc1 := cc.set_index b_clique.preds b_clique.nodes a_index
      match cc1.cliques[a_index]? with
      | none => none
      | some a_clique =>
        remove_clique_by_index
          { cc1 with
            cliques := cc1.cliques.set a_index
              ⟨a_clique.preds ++ b_clique.preds,
               a_clique.nodes ++ b_clique.nodes⟩ }
          b_index
  | _, _ => none

/-- Model of `CliqueCollection::remove_node`: drop the node from its clique and the
lookup; queue the slot when the clique's nodes drain (the code checks only
`nodes.is_empty()`). -/
def remove_node (cc : CliqueCollection) (node : Nat) : Option CliqueCollection :=
  match cc.get_index node with
  | none => none
  | some index =>
    match cc.cliques[index]? with
    | none => none
    | some c =>
      let c2 := c.remove_node node
      let cc2 := { cc with
        cliques := cc.cliques.set index c2,
        index_map := hmRemove cc.index_map node }
      if index ≠ 0 ∧ c2.nodes = [] then
        some { cc2 with queue := cc2.queue ++ [index] }
      else
        some cc2

/-- Model of `CliqueCollection::new_triple`: the four-way case split on prior
knowledge of `node` and `pred`. -/
def new_triple (cc : CliqueCollection) (node pred : Nat) :
    Option CliqueCollection :=
  let node_exists := cc.contains_node node
  let pred_exists := cc.contains_pred pred
  if !node_exists && !pred_exists then
    some (cc.new_clique [pred] [node])
  else if !node_exists && pred_exists then
    cc.add_node_to_clique node pred
  else if node_exists && !pred_exists then
    cc.add_pred_to_clique node pred
  else
    match cc.get_index node, cc.get_index pred with
    | some ni, some pj => if ni ≠ pj then cc.merge_cliques node pred else some cc
    | _, _ => none

/-- Model of `CliqueCollection::new_pred`: panics when the pred already exists. -/
def new_pred (cc : CliqueCollection) (pred : Nat) : Option CliqueCollection :=
  if cc.contains_pred pred then none
  else some (cc.new_clique [pred] [])

/-- Model of `CliqueCollection::move_node`. -/
def move_node (cc : CliqueCollection) (node target : Nat) :
    Option CliqueCollection :=
  (cc.remove_node node).bind (fun cc2 => cc2.add_node_to_clique node target)

/-- Model of `CliqueCollection::move_node_to_empty_clique`. -/
def move_node_to_empty_clique (cc : CliqueCollection) (node : Nat) :
    Option CliqueCollection :=
  (cc.remove_node node).bind (fun cc2 => cc2.add_node_to_empty_clique node)

/-- Model of `CliqueCollection::new_snode`: attach the supernode id to the clique of
`old[0]` (out-of-bounds on an empty `old`), then remove every old member. -/
def new_snode (cc : CliqueCollection) (old : List Nat) (snode : Nat) :
    Option CliqueCollection :=
  match old with
  | [] => none
  | o :: _ =>
    (cc.add_node_to_clique snode o).bind
      (fun cc1 => old.foldlM (fun st n => st.remove_node n) cc1)

end CliqueCollection

/-- Model of `CliqueChange` from src/models/clique.rs. -/
structure CliqueChange where
  clique_index : Nat
  new_nodes : List Nat
  is_source : Bool
deriving DecidableEq, Repr

/-- Model of `CliqueChange::get_super_nodes`: for each newly added node, intersect
the touched clique with the node's other-side clique; keep intersections of
size at least 2, in order. -/
def CliqueChange.get_super_nodes (change : CliqueChange)
    (sc tc : CliqueCollection) : Option (List (List Nat)) :=
  match (if change.is_source then sc else tc).get_clique_by_index
      change.clique_index with
  | none => none
  | some c1 =>
    change.new_nodes.foldlM
      (fun acc node =>
        match (if change.is_source then tc else sc).get_clique_by_node node with
        | none => none
        | some c2 =>
          let inter := c1.node_intersection c2
          some (if 2 ≤ inter.length then acc ++ [inter] else acc))
      []

/-- The distinguished type-predicate IRI from src/parser/triple.rs. -/
def TYPE_STRING : String := "<http://www.w3.org/1999/02/22-rdf-syntax-ns#type>"

/-- Model of `Triple` from src/parser/triple.rs. -/
structure Triple where
  sub : Nat
  pred : Nat
  obj : Nat
  is_type : Bool
deriving DecidableEq, Repr

/-- Dictionary lookup (`dict.get(term).unwrap()`), `none` modelling the
panic on an unknown term. -/
def dictGet (dict : List (String × Nat)) (k : String) : Option Nat :=
  (dict.find? (fun p => p.1 == k)).map (fun p => p.2)

/-- Splitting a character list at every space character, keeping empty
fields, exactly as Rust's `str::split(" ")` does for the one-character
separator: `"a b"` gives two fields, `""` gives one empty field. -/
def split_space : List Char → List (List Char)
  | [] => [[]]
  | c :: cs =>
    if c = ' ' then [] :: split_space cs
    else
      match split_space cs with
      | [] => [[c]]
      | f :: rest => (c :: f) :: rest

/-- The `line.split(" ")` of `push_triples_into_vector`, as a list of field
strings. -/
def split_line (line : String) : List String :=
  (split_space line.toList).map String.mk

/-- One iteration of the loop in `push_triples_into_vector`: split the line
on single spaces, update the (loop-carried) `is_type_pred` flag when the
second field is `TYPE_STRING`, and resolve all three terms through the
dictionary.  Fewer than three fields or an unknown term panics (`none`). -/
def parse_triple_line (dict : List (String × Nat)) (is_type_pred : Bool)
    (line : String) : Option (Bool × Triple) :=
  match split_line line with
  | s :: p :: o :: _ =>
    let flag := if p == TYPE_STRING then true else is_type_pred
    match dictGet dict s, dictGet dict p, dictGet dict o with
    | some si, some pj, some oj => some (flag, ⟨si, pj, oj, flag⟩)
    | _, _, _ => none
  | _ => none

/-- Model of `push_triples_into_vector` from src/parser/triple.rs, over the list of
lines of the input file: the `is_type_pred` flag is initialised once,
before the loop, and threaded through every line. -/
def push_triples_into_vector (dict : List (String × Nat))
    (lines : List String) : Option (List Triple) :=
  (lines.foldlM
      (fun st line =>
        (parse_triple_line dict st.1 line).map
          (fun r => (r.1, st.2 ++ [r.2])))
      ((false, []) : Bool × List Triple)).map
    (fun st => st.2)

/-- The bijection invariant the specification states for a collection:
every identifier contained in some clique has exactly one lookup entry and
that entry names the containing clique's index; conversely every lookup
entry names a clique actually containing the identifier. -/
def lookup_consistent (cc : CliqueCollection) : Prop :=
  (∀ i c, cc.cliques[i]? = some c → ∀ x, x ∈ c.preds ∨ x ∈ c.nodes →
    hmCount cc.index_map x = 1 ∧ hmGet cc.index_map x = some i) ∧
  (∀ x i, hmGet cc.index_map x = some i →
    ∃ c, cc.cliques[i]? = some c ∧ (x ∈ c.preds ∨ x ∈ c.nodes))

/-- Run used for the C1 bijection claim: insert one triple, remove its
node (which queues the slot while its pred set is still populated), then
let `new_clique` recycle the slot for fresh identifiers. -/
def c1_run : Option CliqueCollection :=
  ((CliqueCollection.new.new_triple 10 100).bind
    (fun c => c.remove_node 10)).map
    (fun c => c.new_clique [200] [20])

/-- Run used for the C2 recycling claim: insert one triple, then remove the
only node of its clique. -/
def c2_run : Option CliqueCollection :=
  (CliqueCollection.new.new_triple 10 100).bind (fun c => c.remove_node 10)

/-- Run used for the C3 end-to-end scenario: the three triple insertions of
the specification's scenario, on a fresh collection. -/
def c3_run : Option CliqueCollection :=
  ((CliqueCollection.new.new_triple 10 100).bind
    (fun c => c.new_triple 20 100)).bind
    (fun c => c.new_triple 20 200)

/-- Run used for the C8 self-merge claim: insert one triple, then merge the
node's clique with itself. -/
def c8_run : Option CliqueCollection :=
  (CliqueCollection.new.new_triple 10 100).bind (fun c => c.merge_cliques 10 10)

/-- A change for the C5 scenario: clique 1 on the source side was just
touched, node 2 is newly added. -/
def c5_change : CliqueChange := ⟨1, [2], true⟩

/-- Source side for the C5 scenario: class 1 holds nodes 1, 2, 3. -/
def c5_sc : CliqueCollection :=
  ⟨[⟨[], []⟩, ⟨[7], [1, 2, 3]⟩], [], [(1, 1), (2, 1), (3, 1), (7, 1)]⟩

/-- Target side for the C5 scenario: class 1 holds nodes 2, 3, 4. -/
def c5_tc : CliqueCollection :=
  ⟨[⟨[], []⟩, ⟨[8], [2, 3, 4]⟩], [], [(2, 1), (3, 1), (4, 1), (8, 1)]⟩

/-- A change for the C9 scenario: nodes 2 and 3 are both newly added to the
touched source-side clique 1. -/
def c9_change : CliqueChange := ⟨1, [2, 3], true⟩

/-- Source side for the C9 scenario. -/
def c9_sc : CliqueCollection :=
  ⟨[⟨[], []⟩, ⟨[7], [1, 2, 3]⟩], [], [(1, 1), (2, 1), (3, 1), (7, 1)]⟩

/-- Target side for the C9 scenario: nodes 2, 3 and 9 share class 1, so
the two new nodes have the same other-side clique. -/
def c9_tc : CliqueCollection :=
  ⟨[⟨[], []⟩, ⟨[8], [2, 3, 9]⟩], [], [(2, 1), (3, 1), (9, 1), (8, 1)]⟩

/-- Collection used by the C4 witness: identifier 10 with pred 100 in
class 1, identifier 20 with pred 200 in class 2. -/
def c4w : CliqueCollection :=
  ⟨[⟨[], []⟩, ⟨[100], [10]⟩, ⟨[200], [20]⟩], [],
   [(10, 1), (100, 1), (20, 2), (200, 2)]⟩

/-- Collection used by the C6 witness: node 10 with pred 100 in class 1,
node 5 in the distinguished empty clique. -/
def c6w : CliqueCollection :=
  ⟨[⟨[], [5]⟩, ⟨[100], [10]⟩], [], [(5, 0), (10, 1), (100, 1)]⟩

/-- Collection used by the C10 witness: nodes 10 and 11 with pred 100 in
class 1. -/
def c10w : CliqueCollection :=
  ⟨[⟨[], []⟩, ⟨[100], [10, 11]⟩], [], [(10, 1), (11, 1), (100, 1)]⟩

/-- Dictionary for the C7 scenario. -/
def c7_dict : List (String × Nat) :=
  [("<a>", 1), ("<b>", 2), ("<p>", 3),
   ("<http://www.w3.org/1999/02/22-rdf-syntax-ns#type>", 4)]

/-- Input lines for the C7 scenario: the first line carries the type
predicate, the second carries the plain predicate `<p>`. -/
def c7_lines : List String :=
  ["<a> <http://www.w3.org/1999/02/22-rdf-syntax-ns#type> <b> .",
   "<a> <p> <b> ."]

theorem hmGet_insert_self (m : List (Nat × Nat)) (k v : Nat) :
    hmGet (hmInsert m k v) k = some v := by
  simp [hmGet, hmInsert]

theorem find?_filter_ne (m : List (Nat × Nat)) (k k2 : Nat) (h : k2 ≠ k) :
    (m.filter (fun p => p.1 ≠ k)).find? (fun p => p.1 == k2) =
      m.find? (fun p => p.1 == k2) := by
  induction m with
  | nil => rfl
  | cons a t ih =>
    by_cases ha : a.1 = k
    · have hne : ¬a.1 = k2 := by rw [ha]; exact Ne.symm h
      rw [List.filter_cons, if_neg (by simp [ha]), ih,
        List.find?_cons_of_neg _ (by simp [hne])]
    · by_cases ha2 : a.1 = k2
      · rw [List.filter_cons, if_pos (by simp [ha]),
          List.find?_cons_of_pos _ (by simp [ha2]),
          List.find?_cons_of_pos _ (by simp [ha2])]
      · rw [List.filter_cons, if_pos (by simp [ha]),
          List.find?_cons_of_neg _ (by simp [ha2]),
          List.find?_cons_of_neg _ (by simp [ha2]), ih]

theorem hmGet_insert_ne (m : List (Nat × Nat)) (k v k2 : Nat) (h : k2 ≠ k) :
    hmGet (hmInsert m k v) k2 = hmGet m k2 := by
  unfold hmGet hmInsert
  rw [List.find?_cons_of_neg _ (by simp [Ne.symm h]), find?_filter_ne m k k2 h]

theorem hmGet_remove_ne (m : List (Nat × Nat)) (k k2 : Nat) (h : k2 ≠ k) :
    hmGet (hmRemove m k) k2 = hmGet m k2 := by
  unfold hmGet hmRemove
  rw [find?_filter_ne m k k2 h]

theorem hmGet_remove_self (m : List (Nat × Nat)) (k : Nat) :
    hmGet (hmRemove m k) k = none := by
  unfold hmGet hmRemove
  rw [List.find?_eq_none.mpr]
  · rfl
  · intro x hx
    have := (List.mem_filter.mp hx).2
    simp only [decide_not] at this
    simpa using this

theorem hmGet_foldl_insert_not_mem (l : List Nat) (m : List (Nat × Nat))
    (i x : Nat) (hx : x ∉ l) :
    hmGet (l.foldl (fun m n => hmInsert m n i) m) x = hmGet m x := by
  induction l generalizing m with
  | nil => rfl
  | cons a t ih =>
    have hxa : x ≠ a := fun h => hx (h ▸ List.mem_cons_self a t)
    have hxt : x ∉ t := fun h => hx (List.mem_cons_of_mem a h)
    rw [List.foldl_cons, ih _ hxt, hmGet_insert_ne m a i x hxa]

theorem hmGet_foldl_insert_mem (l : List Nat) (m : List (Nat × Nat))
    (i x : Nat) (hx : x ∈ l) :
    hmGet (l.foldl (fun m n => hmInsert m n i) m) x = some i := by
  induction l generalizing m with
  | nil => cases hx
  | cons a t ih =>
    by_cases hxt : x ∈ t
    · rw [List.foldl_cons, ih _ hxt]
    · have hxa : x = a := by
        rcases List.mem_cons.mp hx with h | h
        · exact h
        · exact absurd h hxt
      subst hxa
      rw [List.foldl_cons, hmGet_foldl_insert_not_mem t _ i x hxt,
        hmGet_insert_self]

theorem set_index_cliques (cc : CliqueCollection) (preds nodes : List Nat)
    (i : Nat) : (cc.set_index preds nodes i).cliques = cc.cliques := rfl

theorem set_index_queue (cc : CliqueCollection) (preds nodes : List Nat)
    (i : Nat) : (cc.set_index preds nodes i).queue = cc.queue := rfl

theorem get_index_set_index_mem (cc : CliqueCollection)
    (preds nodes : List Nat) (i x : Nat) (hx : x ∈ preds ∨ x ∈ nodes) :
    (cc.set_index preds nodes i).get_index x = some i := by
  unfold CliqueCollection.set_index CliqueCollection.get_index
  by_cases hn : x ∈ nodes
  · exact hmGet_foldl_insert_mem nodes _ i x hn
  · have hp : x ∈ preds := by
      rcases hx with h | h
      · exact h
      · exact absurd h hn
    rw [hmGet_foldl_insert_not_mem nodes _ i x hn]
    exact hmGet_foldl_insert_mem preds _ i x hp

theorem get_index_set_index_not_mem (cc : CliqueCollection)
    (preds nodes : List Nat) (i x : Nat) (hp : x ∉ preds) (hn : x ∉ nodes) :
    (cc.set_index preds nodes i).get_index x = cc.get_index x := by
  unfold CliqueCollection.set_index CliqueCollection.get_index
  rw [hmGet_foldl_insert_not_mem nodes _ i x hn,
    hmGet_foldl_insert_not_mem preds _ i x hp]

/-- C1.  The claimed bijection invariant does not survive every sequence of
the listed operations: after `new_triple 10 100`, `remove_node 10` (which
queues slot 1 while pred 100 is still recorded there) and the recycling
`new_clique [200] [20]`, the lookup still maps 100 to class index 1 even
though clique 1 contains neither 100 in its preds nor in its nodes, so the
converse direction of the bijection fails. -/
theorem C1_bijection_violated :
    ∃ cc, c1_run = some cc ∧
      cc.get_index 100 = some 1 ∧
      cc.get_clique_by_index 1 = some ⟨[200], [20]⟩ ∧
      ¬lookup_consistent cc := by
  refine ⟨⟨[⟨[], []⟩, ⟨[200], [20]⟩], [], [(20, 1), (200, 1), (100, 1)]⟩,
    by decide, by decide, by decide, ?_⟩
  intro h
  obtain ⟨c, hc, hmem⟩ := h.2 100 1 (by decide)
  have hcv : c = ⟨[200], [20]⟩ := by
    have := hc
    simp only [List.getElem?_cons_succ, List.getElem?_cons_zero] at this
    exact (Option.some.inj this).symm
  subst hcv
  revert hmem
  decide

/-- C2.  The free-list push is not guarded by the predicate set being
empty: after `new_triple 10 100` and `remove_node 10`, slot 1 is pushed
onto the free list although its clique still holds pred 100, and once
`new_clique [200] [20]` recycles the slot, the stale identifier 100 still
resolves to it through the lookup. -/
theorem C2_recycling_violated :
    (c2_run.map (fun cc => (cc.queue, cc.get_clique_by_index 1)) =
      some ([1], some ⟨[100], []⟩) ∧ ([100] : List Nat) ≠ []) ∧
    c1_run.map (fun cc => (cc.get_index 100,
        (cc.get_clique_by_index 1).map (fun c => c.preds.contains 100))) =
      some (some 1, some false) := by
  exact ⟨⟨by decide, by decide⟩, by decide⟩

/-- C7.  The `is_type_pred` flag is initialised once, outside the loop, and
never reset: after a line carrying the type predicate, a later line whose
own predicate field is `<p>` (≠ `TYPE_STRING`) is still flagged
`is_type = true`, so the flag is not a function of the line's own predicate
field. -/
theorem C7_type_flag_sticky :
    push_triples_into_vector c7_dict c7_lines =
      some [⟨1, 4, 2, true⟩, ⟨1, 3, 2, true⟩] ∧
    (split_line "<a> <p> <b> .")[1]? = some "<p>" ∧
    ("<p>" = TYPE_STRING ↔ False) := by
  refine ⟨by decide, by decide, ?_⟩
  simp [TYPE_STRING]

/-- C8.  Self-merge does not abort: `merge_cliques 10 10` on a collection
where 10 is known completes normally (`some`), empties the clique it was
called on, pushes its slot onto the free list, and leaves the lookup
entries of 10 and 100 dangling at the emptied slot — silent corruption
rather than a loud failure. -/
theorem C8_self_merge_completes :
    c8_run.map (fun cc =>
        (cc.get_index 10, cc.get_index 100, cc.get_clique_by_index 1,
         cc.queue)) =
      some (some 1, some 1, some ⟨[], []⟩, [1]) := by
  decide

/-- C9.  `get_super_nodes` does not deduplicate: newly added nodes 2 and 3
are distinct but share the other-side class 1 of `c9_tc`, and the
qualifying intersection group `[2, 3]` is reported once per node, so the
result repeats the identical group. -/
theorem C9_duplicate_groups :
    c9_change.get_super_nodes c9_sc c9_tc = some [[2, 3], [2, 3]] ∧
    c9_change.new_nodes = [2, 3] ∧ (2 : Nat) ≠ 3 ∧
    c9_tc.get_index 2 = c9_tc.get_index 3 := by
  exact ⟨by decide, by decide, by decide, by decide⟩

/-- C4.  Merge semantics: for identifiers `a` and `b` in distinct classes,
`merge_cliques a b` re-points every identifier of `b`'s clique to `a`'s
class index, the surviving class holds the concatenation of the two pred
sets and of the two node sets (no duplicates when the two node sets were
duplicate-free and disjoint, as the bijection invariant guarantees),
`b`'s class is emptied, and its index goes to the back of the free list. -/
theorem C4_merge_semantics (cc : CliqueCollection) (a b a_index b_index : Nat)
    (ca cb : Clique)
    (ha : cc.get_index a = some a_index) (hb : cc.get_index b = some b_index)
    (hne : a_index ≠ b_index)
    (hca : cc.cliques[a_index]? = some ca)
    (hcb : cc.cliques[b_index]? = some cb) :
    ∃ cc', cc.merge_cliques a b = some cc' ∧
      (∀ x, x ∈ cb.preds ∨ x ∈ cb.nodes → cc'.get_index x = some a_index) ∧
      cc'.get_clique_by_index a_index =
        some ⟨ca.preds ++ cb.preds, ca.nodes ++ cb.nodes⟩ ∧
      cc'.get_clique_by_index b_index = some (⟨[], []⟩ : Clique) ∧
      cc'.queue = cc.queue ++ [b_index] ∧
      (ca.nodes.Nodup → cb.nodes.Nodup → (∀ x ∈ ca.nodes, x ∉ cb.nodes) →
        (ca.nodes ++ cb.nodes).Nodup) := by
  have hla : a_index < cc.cliques.length := (List.getElem?_eq_some_iff.mp hca).1
  have hlb : b_index < cc.cliques.length := (List.getElem?_eq_some_iff.mp hcb).1
  have hread : (cc.cliques.set a_index
        ⟨ca.preds ++ cb.preds, ca.nodes ++ cb.nodes⟩)[b_index]? = some cb := by
    rw [List.getElem?_set_ne hne, hcb]
  have hmerge : cc.merge_cliques a b = some
      { cliques := (cc.cliques.set a_index
          ⟨ca.preds ++ cb.preds, ca.nodes ++ cb.nodes⟩).set b_index ⟨[], []⟩,
        queue := cc.queue ++ [b_index],
        index_map := (cc.set_index cb.preds cb.nodes a_index).index_map } := by
    unfold CliqueCollection.merge_cliques
    rw [ha, hb]
    simp only [hcb, set_index_cliques, hca]
    unfold CliqueCollection.remove_clique_by_index
    simp only [hread]
    rfl
  refine ⟨_, hmerge, ?_, ?_, ?_, ?_, ?_⟩
  · intro x hx
    exact get_index_set_index_mem cc cb.preds cb.nodes a_index x hx
  · show ((cc.cliques.set a_index
        ⟨ca.preds ++ cb.preds, ca.nodes ++ cb.nodes⟩).set b_index
        ⟨[], []⟩)[a_index]? = _
    rw [List.getElem?_set_ne (Ne.symm hne),
      List.getElem?_set_self (by simpa using hla)]
  · show ((cc.cliques.set a_index
        ⟨ca.preds ++ cb.preds, ca.nodes ++ cb.nodes⟩).set b_index
        ⟨[], []⟩)[b_index]? = _
    rw [List.getElem?_set_self (by simpa using hlb)]
  · rfl
  · intro h1 h2 hdisj
    exact h1.append h2 (fun x hx1 hx2 => hdisj x hx1 hx2)

/-- Witness for C4 at a concrete collection. -/
theorem C4_merge_semantics_witness :
    ∃ cc', c4w.merge_cliques 10 20 = some cc' ∧
      (∀ x, x ∈ ([200] : List Nat) ∨ x ∈ ([20] : List Nat) →
        cc'.get_index x = some 1) ∧
      cc'.get_clique_by_index 1 = some ⟨[100] ++ [200], [10] ++ [20]⟩ ∧
      cc'.get_clique_by_index 2 = some (⟨[], []⟩ : Clique) ∧
      cc'.queue = c4w.queue ++ [2] ∧
      (([10] : List Nat).Nodup → ([20] : List Nat).Nodup →
        (∀ x ∈ ([10] : List Nat), x ∉ ([20] : List Nat)) →
        (([10] : List Nat) ++ [20]).Nodup) :=
  C4_merge_semantics c4w 10 20 1 2 ⟨[100], [10]⟩ ⟨[200], [20]⟩
    (by decide) (by decide) (by decide) (by decide) (by decide)

/-- C6.  Empty-clique semantics: a node added via `add_node_to_empty_clique`
lands in the distinguished class 0 and `in_empty_clique` reports it there;
the node-known-pred-unknown path of `new_triple` is exactly
`add_pred_to_clique`, which aborts precisely when the node's class index is
0, and otherwise appends the pred to the node's class and records it in the
lookup. -/
theorem C6_empty_clique_semantics :
    (∀ (cc : CliqueCollection) (node : Nat) (c0 : Clique),
      cc.cliques[0]? = some c0 →
      ∃ cc', cc.add_node_to_empty_clique node = some cc' ∧
        cc'.in_empty_clique node = some true ∧
        cc'.get_clique_by_index 0 = some ⟨c0.preds, c0.nodes ++ [node]⟩) ∧
    (∀ (cc : CliqueCollection) (node pred : Nat),
      cc.contains_node node = true → cc.contains_pred pred = false →
      cc.new_triple node pred = cc.add_pred_to_clique node pred) ∧
    (∀ (cc : CliqueCollection) (node pred i : Nat) (c : Clique),
      cc.get_index node = some i → cc.cliques[i]? = some c →
      (cc.add_pred_to_clique node pred = none ↔ i = 0)) ∧
    (∀ (cc : CliqueCollection) (node pred i : Nat) (c : Clique),
      cc.get_index node = some i → i ≠ 0 → cc.cliques[i]? = some c →
      ∃ cc', cc.add_pred_to_clique node pred = some cc' ∧
        cc'.get_index pred = some i ∧
        cc'.get_clique_by_index i = some ⟨c.preds ++ [pred], c.nodes⟩) := by
  refine ⟨?_, ?_, ?_, ?_⟩
  · intro cc node c0 h0
    have hl0 : 0 < cc.cliques.length := (List.getElem?_eq_some_iff.mp h0).1
    have heq : cc.add_node_to_empty_clique node = some
        { cc with
          cliques := cc.cliques.set 0 { c0 with nodes := c0.nodes ++ [node] },
          index_map := hmInsert cc.index_map node 0 } := by
      unfold CliqueCollection.add_node_to_empty_clique
      simp only [h0]
    refine ⟨_, heq, ?_, ?_⟩
    · unfold CliqueCollection.in_empty_clique CliqueCollection.get_index
      rw [hmGet_insert_self]
      rfl
    · show (cc.cliques.set 0 { c0 with nodes := c0.nodes ++ [node] })[0]? = _
      rw [List.getElem?_set_self (by simpa using hl0)]
  · intro cc node pred hn hp
    simp only [CliqueCollection.new_triple, hn, hp, Bool.not_true,
      Bool.not_false, Bool.false_and, Bool.and_false, Bool.and_true,
      Bool.true_and, if_false, if_true, Bool.false_eq_true, ite_false,
      ite_true]
  · intro cc node pred i c h hi
    by_cases h0 : i = 0
    · simp [CliqueCollection.add_pred_to_clique, h, h0]
    · simp [CliqueCollection.add_pred_to_clique, h, h0, hi]
  · intro cc node pred i c h h0 hi
    have hli : i < cc.cliques.length := (List.getElem?_eq_some_iff.mp hi).1
    have heq : cc.add_pred_to_clique node pred = some
        { cc with
          cliques := cc.cliques.set i { c with preds := c.preds ++ [pred] },
          index_map := hmInsert cc.index_map pred i } := by
      unfold CliqueCollection.add_pred_to_clique
      rw [h]
      simp only [h0, if_false, hi]
    refine ⟨_, heq, ?_, ?_⟩
    · unfold CliqueCollection.get_index
      exact hmGet_insert_self _ _ _
    · show (cc.cliques.set i { c with preds := c.preds ++ [pred] })[i]? = _
      rw [List.getElem?_set_self (by simpa using hli)]

/-- Witness for C6 at concrete collections. -/
theorem C6_empty_clique_semantics_witness :
    (∃ cc', CliqueCollection.new.add_node_to_empty_clique 5 = some cc' ∧
      cc'.in_empty_clique 5 = some true ∧
      cc'.get_clique_by_index 0 = some ⟨[], [] ++ [5]⟩) ∧
    (c6w.new_triple 10 300 = c6w.add_pred_to_clique 10 300) ∧
    (c6w.add_pred_to_clique 5 300 = none ↔ (0 : Nat) = 0) ∧
    (∃ cc', c6w.add_pred_to_clique 10 300 = some cc' ∧
      cc'.get_index 300 = some 1 ∧
      cc'.get_clique_by_index 1 = some ⟨[100] ++ [300], [10]⟩) :=
  ⟨C6_empty_clique_semantics.1 CliqueCollection.new 5 ⟨[], []⟩ (by decide),
   C6_empty_clique_semantics.2.1 c6w 10 300 (by decide) (by decide),
   C6_empty_clique_semantics.2.2.1 c6w 5 300 0 ⟨[], [5]⟩ (by decide)
     (by decide),
   C6_empty_clique_semantics.2.2.2 c6w 10 300 1 ⟨[100], [10]⟩ (by decide)
     (by decide) (by decide)⟩

theorem new_triple_fresh (cc : CliqueCollection) (node pred : Nat)
    (hn : cc.contains_node node = false) (hp : cc.contains_pred pred = false) :
    cc.new_triple node pred = some (cc.new_clique [pred] [node]) := by
  unfold CliqueCollection.new_triple
  rw [hn, hp]
  rfl

theorem new_triple_pred_known (cc : CliqueCollection) (node pred : Nat)
    (hn : cc.contains_node node = false) (hp : cc.contains_pred pred = true) :
    cc.new_triple node pred = cc.add_node_to_clique node pred := by
  unfold CliqueCollection.new_triple
  rw [hn, hp]
  rfl

theorem new_triple_node_known (cc : CliqueCollection) (node pred : Nat)
    (hn : cc.contains_node node = true) (hp : cc.contains_pred pred = false) :
    cc.new_triple node pred = cc.add_pred_to_clique node pred := by
  unfold CliqueCollection.new_triple
  rw [hn, hp]
  rfl

theorem contains_node_of_get_index (cc : CliqueCollection) (x i : Nat)
    (h : cc.get_index x = some i) : cc.contains_node x = true := by
  unfold CliqueCollection.get_index at h
  unfold CliqueCollection.contains_node hmContains
  rw [h]
  rfl

theorem contains_pred_of_get_index (cc : CliqueCollection) (x i : Nat)
    (h : cc.get_index x = some i) : cc.contains_pred x = true := by
  unfold CliqueCollection.get_index at h
  unfold CliqueCollection.contains_pred hmContains
  rw [h]
  rfl

theorem new_triple_both_known (cc : CliqueCollection) (node pred i j : Nat)
    (hn : cc.get_index node = some i) (hp : cc.get_index pred = some j) :
    cc.new_triple node pred =
      if i ≠ j then cc.merge_cliques node pred else some cc := by
  unfold CliqueCollection.new_triple
  rw [contains_node_of_get_index cc node i hn,
    contains_pred_of_get_index cc pred j hp, hn, hp]
  rfl

theorem new_clique_spec (cc : CliqueCollection) (preds nodes : List Nat)
    (hq : ∀ j ∈ cc.queue, j < cc.cliques.length) :
    ∃ i, (∀ x, x ∈ preds ∨ x ∈ nodes →
        (cc.new_clique preds nodes).get_index x = some i) ∧
      (cc.new_clique preds nodes).get_clique_by_index i =
        some ⟨preds, nodes⟩ := by
  cases hqq : cc.queue with
  | nil =>
    refine ⟨cc.cliques.length, ?_, ?_⟩
    · intro x hx
      unfold CliqueCollection.new_clique
      rw [hqq]
      exact get_index_set_index_mem _ preds nodes _ x hx
    · unfold CliqueCollection.new_clique
      rw [hqq]
      show ((cc.cliques ++ [⟨preds, nodes⟩])[cc.cliques.length]?) = _
      rw [List.getElem?_concat_length]
  | cons q rest =>
    have hql : q < cc.cliques.length :=
      hq q (by rw [hqq]; exact List.mem_cons_self q rest)
    refine ⟨q, ?_, ?_⟩
    · intro x hx
      unfold CliqueCollection.new_clique
      rw [hqq]
      exact get_index_set_index_mem _ preds nodes _ x hx
    · unfold CliqueCollection.new_clique
      rw [hqq]
      show ((cc.cliques.set q ⟨preds, nodes⟩)[q]?) = _
      rw [List.getElem?_set_self (by simpa using hql)]

/-- C3.  `new_triple` follows the four-way case split: fresh/fresh
allocates a clique holding exactly `{pred}` and `{node}` and both lookups
point at it; pred known alone appends the node to pred's clique; node known
alone appends the pred to node's clique; both known is a no-op in the same
class and a merge across classes.  The scenario (10,100), (20,100),
(20,200) from a fresh collection puts 10 and 20 in one class after the
second insertion and ends with that class holding preds `[100, 200]` and
nodes `[10, 20]`. -/
theorem C3_new_triple_cases :
    (∀ (cc : CliqueCollection) (node pred : Nat),
      cc.contains_node node = false → cc.contains_pred pred = false →
      (∀ j ∈ cc.queue, j < cc.cliques.length) →
      ∃ i cc', cc.new_triple node pred = some cc' ∧
        cc'.get_index node = some i ∧ cc'.get_index pred = some i ∧
        cc'.get_clique_by_index i = some ⟨[pred], [node]⟩) ∧
    (∀ (cc : CliqueCollection) (node pred i : Nat) (c : Clique),
      cc.contains_node node = false → cc.get_index pred = some i →
      cc.cliques[i]? = some c →
      ∃ cc', cc.new_triple node pred = some cc' ∧
        cc'.get_index node = some i ∧
        cc'.get_clique_by_index i = some ⟨c.preds, c.nodes ++ [node]⟩) ∧
    (∀ (cc : CliqueCollection) (node pred i : Nat) (c : Clique),
      cc.get_index node = some i → cc.contains_pred pred = false → i ≠ 0 →
      cc.cliques[i]? = some c →
      ∃ cc', cc.new_triple node pred = some cc' ∧
        cc'.get_index pred = some i ∧
        cc'.get_clique_by_index i = some ⟨c.preds ++ [pred], c.nodes⟩) ∧
    (∀ (cc : CliqueCollection) (node pred i : Nat),
      cc.get_index node = some i → cc.get_index pred = some i →
      cc.new_triple node pred = some cc) ∧
    (∀ (cc : CliqueCollection) (node pred i j : Nat),
      cc.get_index node = some i → cc.get_index pred = some j → i ≠ j →
      cc.new_triple node pred = cc.merge_cliques node pred) ∧
    (∃ cc2 cc3,
      (CliqueCollection.new.new_triple 10 100).bind
        (fun c => c.new_triple 20 100) = some cc2 ∧
      cc2.in_same_clique 10 20 = some true ∧
      c3_run = some cc3 ∧ cc3.get_index 10 = some 1 ∧
      cc3.get_index 20 = some 1 ∧
      cc3.get_clique_by_index 1 = some ⟨[100, 200], [10, 20]⟩) := by
  refine ⟨?_, ?_, ?_, ?_, ?_, ?_⟩
  · intro cc node pred hn hp hq
    obtain ⟨i, hmem, hclique⟩ := new_clique_spec cc [pred] [node] hq
    refine ⟨i, cc.new_clique [pred] [node], new_triple_fresh cc node pred hn hp,
      hmem node (Or.inr (List.mem_singleton.mpr rfl)),
      hmem pred (Or.inl (List.mem_singleton.mpr rfl)), hclique⟩
  · intro cc node pred i c hn hp hi
    have hli : i < cc.cliques.length := (List.getElem?_eq_some_iff.mp hi).1
    have heq : cc.add_node_to_clique node pred = some
        { cc with
          cliques := cc.cliques.set i { c with nodes := c.nodes ++ [node] },
          index_map := hmInsert cc.index_map node i } := by
      unfold CliqueCollection.add_node_to_clique
      rw [hp]
      simp only [hi]
    refine ⟨{ cc with
        cliques := cc.cliques.set i { c with nodes := c.nodes ++ [node] },
        index_map := hmInsert cc.index_map node i }, ?_, ?_, ?_⟩
    · rw [new_triple_pred_known cc node pred hn
        (contains_pred_of_get_index cc pred i hp)]
      exact heq
    · unfold CliqueCollection.get_index
      exact hmGet_insert_self _ _ _
    · show (cc.cliques.set i { c with nodes := c.nodes ++ [node] })[i]? = _
      rw [List.getElem?_set_self (by simpa using hli)]
  · intro cc node pred i c hn hp h0 hi
    have hli : i < cc.cliques.length := (List.getElem?_eq_some_iff.mp hi).1
    have heq : cc.add_pred_to_clique node pred = some
        { cc with
          cliques := cc.cliques.set i { c with preds := c.preds ++ [pred] },
          index_map := hmInsert cc.index_map pred i } := by
      unfold CliqueCollection.add_pred_to_clique
      rw [hn]
      simp only [h0, if_false, hi]
    refine ⟨{ cc with
        cliques := cc.cliques.set i { c with preds := c.preds ++ [pred] },
        index_map := hmInsert cc.index_map pred i }, ?_, ?_, ?_⟩
    · rw [new_triple_node_known cc node pred
        (contains_node_of_get_index cc node i hn) hp]
      exact heq
    · unfold CliqueCollection.get_index
      exact hmGet_insert_self _ _ _
    · show (cc.cliques.set i { c with preds := c.preds ++ [pred] })[i]? = _
      rw [List.getElem?_set_self (by simpa using hli)]
  · intro cc node pred i hn hp
    rw [new_triple_both_known cc node pred i i hn hp]
    simp
  · intro cc node pred i j hn hp hij
    rw [new_triple_both_known cc node pred i j hn hp]
    simp [hij]
  · refine ⟨⟨[⟨[], []⟩, ⟨[100], [10, 20]⟩], [], [(20, 1), (10, 1), (100, 1)]⟩,
      ⟨[⟨[], []⟩, ⟨[100, 200], [10, 20]⟩], [],
       [(200, 1), (20, 1), (10, 1), (100, 1)]⟩,
      by decide, by decide, by decide, by decide, by decide, by decide⟩

/-- Witness for C3: the fresh/fresh case and the both-known no-op case at
concrete inputs. -/
theorem C3_new_triple_cases_witness :
    (∃ i cc', CliqueCollection.new.new_triple 5 7 = some cc' ∧
      cc'.get_index 5 = some i ∧ cc'.get_index 7 = some i ∧
      cc'.get_clique_by_index i = some ⟨[7], [5]⟩) ∧
    (c6w.new_triple 10 100 = some c6w) :=
  ⟨C3_new_triple_cases.1 CliqueCollection.new 5 7 (by decide) (by decide)
      (by decide),
   C3_new_triple_cases.2.2.2.1 c6w 10 100 1 (by decide) (by decide)⟩

theorem super_nodes_fold_spec (c1 : Clique) (other : CliqueCollection) :
    ∀ (l : List Nat) (acc gs : List (List Nat)),
      l.foldlM
          (fun acc node =>
            match other.get_clique_by_node node with
            | none => none
            | some c2 =>
              let inter := c1.node_intersection c2
              some (if 2 ≤ inter.length then acc ++ [inter] else acc))
          acc = some gs →
      ∀ g ∈ gs, g ∈ acc ∨ (2 ≤ g.length ∧ ∃ n ∈ l, ∃ c2,
        other.get_clique_by_node n = some c2 ∧
        g = c1.node_intersection c2) := by
  intro l
  induction l with
  | nil =>
    intro acc gs h g hg
    simp only [List.foldlM_nil] at h
    cases h
    exact Or.inl hg
  | cons a t ih =>
    intro acc gs h g hg
    rw [List.foldlM_cons] at h
    cases hc : other.get_clique_by_node a with
    | none =>
      rw [hc] at h
      cases h
    | some c2 =>
      rw [hc] at h
      have h2 : t.foldlM
          (fun acc node =>
            match other.get_clique_by_node node with
            | none => none
            | some c2 =>
              let inter := c1.node_intersection c2
              some (if 2 ≤ inter.length then acc ++ [inter] else acc))
          (if 2 ≤ (c1.node_intersection c2).length then
            acc ++ [c1.node_intersection c2] else acc) = some gs := h
      rcases ih _ _ h2 g hg with hacc | hrest
      · by_cases hlen : 2 ≤ (c1.node_intersection c2).length
        · rw [if_pos hlen] at hacc
          rcases List.mem_append.mp hacc with h1 | h1
          · exact Or.inl h1
          · have hgc : g = c1.node_intersection c2 := by simpa using h1
            exact Or.inr ⟨hgc ▸ hlen, a, List.mem_cons_self a t, c2, hc, hgc⟩
        · rw [if_neg hlen] at hacc
          exact Or.inl hacc
      · obtain ⟨hlen, n, hn, c2', hc2', hg'⟩ := hrest
        exact Or.inr ⟨hlen, n, List.mem_cons_of_mem a hn, c2', hc2', hg'⟩

/-- C5.  Every group reported by `get_super_nodes` has at least two
members and is the node-wise intersection of the touched clique with the
other-side clique of one of the newly added nodes; on classes with node
sets `[1, 2, 3]` and `[2, 3, 4]` the detected group is exactly `[2, 3]`. -/
theorem C5_supernode_threshold :
    (∀ (change : CliqueChange) (sc tc : CliqueCollection)
        (gs : List (List Nat)),
      change.get_super_nodes sc tc = some gs →
      ∃ c1, (if change.is_source then sc else tc).get_clique_by_index
          change.clique_index = some c1 ∧
        ∀ g ∈ gs, 2 ≤ g.length ∧ ∃ n ∈ change.new_nodes, ∃ c2,
          (if change.is_source then tc else sc).get_clique_by_node n =
            some c2 ∧ g = c1.node_intersection c2) ∧
    (c5_sc.get_nodes 1 = some [1, 2, 3] ∧ c5_tc.get_nodes 1 = some [2, 3, 4] ∧
      c5_change.get_super_nodes c5_sc c5_tc = some [[2, 3]]) := by
  constructor
  · intro change sc tc gs h
    unfold CliqueChange.get_super_nodes at h
    cases hc1 : (if change.is_source then sc else tc).get_clique_by_index
        change.clique_index with
    | none =>
      rw [hc1] at h
      cases h
    | some c1 =>
      rw [hc1] at h
      refine ⟨c1, rfl, ?_⟩
      intro g hg
      rcases super_nodes_fold_spec c1 (if change.is_source then tc else sc)
          change.new_nodes [] gs h g hg with habs | hok
      · cases habs
      · obtain ⟨hlen, n, hn, c2, hc2, hgc⟩ := hok
        exact ⟨hlen, n, hn, c2, hc2, hgc⟩
  · exact ⟨by decide, by decide, by decide⟩

/-- Witness for C5 at the concrete two-class scenario. -/
theorem C5_supernode_threshold_witness :
    ∃ c1, (if c5_change.is_source then c5_sc else c5_tc).get_clique_by_index
        c5_change.clique_index = some c1 ∧
      ∀ g ∈ [[2, 3]], 2 ≤ g.length ∧ ∃ n ∈ c5_change.new_nodes, ∃ c2,
        (if c5_change.is_source then c5_tc else c5_sc).get_clique_by_node n =
          some c2 ∧ g = c1.node_intersection c2 :=
  C5_supernode_threshold.1 c5_change c5_sc c5_tc [[2, 3]] (by decide)

theorem remove_node_result (cc : CliqueCollection) (n j : Nat) (c : Clique)
    (hj : cc.get_index n = some j) (hc : cc.cliques[j]? = some c) :
    ∃ q, cc.remove_node n = some
      { cliques := cc.cliques.set j (c.remove_node n),
        queue := q,
        index_map := hmRemove cc.index_map n } := by
  unfold CliqueCollection.remove_node
  rw [hj]
  simp only [hc]
  by_cases hcond : j ≠ 0 ∧ (c.remove_node n).nodes = []
  · exact ⟨cc.queue ++ [j], by rw [if_pos hcond]⟩
  · exact ⟨cc.queue, by rw [if_neg hcond]⟩

theorem new_snode_fold (snode i0 : Nat) :
    ∀ (l : List Nat) (st : CliqueCollection),
      snode ∉ l → l.Nodup →
      st.get_index snode = some i0 →
      (∀ n ∈ l, ∃ j, st.get_index n = some j ∧ j < st.cliques.length) →
      (∃ c, st.cliques[i0]? = some c ∧ snode ∈ c.nodes) →
      ∃ cc', l.foldlM (fun s n => s.remove_node n) st = some cc' ∧
        cc'.get_index snode = some i0 ∧
        ∃ c, cc'.cliques[i0]? = some c ∧ snode ∈ c.nodes := by
  intro l
  induction l with
  | nil =>
    intro st _ _ hs _ hc
    exact ⟨st, rfl, hs, hc⟩
  | cons a t ih =>
    intro st hsl hnd hs hmem hc
    have hsa : snode ≠ a := fun h => hsl (h ▸ List.mem_cons_self a t)
    have hst : snode ∉ t := fun h => hsl (List.mem_cons_of_mem a h)
    have hat : a ∉ t := (List.nodup_cons.mp hnd).1
    have hndt : t.Nodup := (List.nodup_cons.mp hnd).2
    obtain ⟨j, hj, hjl⟩ := hmem a (List.mem_cons_self a t)
    obtain ⟨ca, hca⟩ : ∃ ca, st.cliques[j]? = some ca := by
      rw [List.getElem?_eq_getElem hjl]
      exact ⟨_, rfl⟩
    obtain ⟨q, hrm⟩ := remove_node_result st a j ca hj hca
    rw [List.foldlM_cons, hrm]
    apply ih
    · exact hst
    · exact hndt
    · show hmGet (hmRemove st.index_map a) snode = some i0
      rw [hmGet_remove_ne _ _ _ hsa]
      exact hs
    · intro n hn
      obtain ⟨jn, hjn, hjnl⟩ := hmem n (List.mem_cons_of_mem a hn)
      have hna : n ≠ a := fun h => hat (h ▸ hn)
      refine ⟨jn, ?_, ?_⟩
      · show hmGet (hmRemove st.index_map a) n = some jn
        rw [hmGet_remove_ne _ _ _ hna]
        exact hjn
      · show jn < (st.cliques.set j (ca.remove_node a)).length
        simpa using hjnl
    · obtain ⟨c, hci, hmemc⟩ := hc
      by_cases hji : j = i0
      · subst hji
        have hcc : ca = c := Option.some.inj (hca.symm.trans hci)
        subst hcc
        refine ⟨ca.remove_node a, ?_, ?_⟩
        · show (st.cliques.set j (ca.remove_node a))[j]? = _
          rw [List.getElem?_set_self (by simpa using hjl)]
        · show snode ∈ ca.nodes.filter (fun n => n ≠ a)
          exact List.mem_filter.mpr ⟨hmemc, by simpa using hsa⟩
      · refine ⟨c, ?_, hmemc⟩
        show (st.cliques.set j (ca.remove_node a))[i0]? = some c
        rw [List.getElem?_set_ne hji]
        exact hci

/-- C10.  `new_snode` panics on an empty member list (`old[0]` is out of
bounds), and for a non-empty `old` it attaches the supernode identifier to
the class that held `old[0]` before removing the old members, so the
supernode ends up in — and the lookup maps it to — that class. -/
theorem C10_new_snode :
    (∀ (cc : CliqueCollection) (snode : Nat), cc.new_snode [] snode = none) ∧
    (∀ (cc : CliqueCollection) (old : List Nat) (snode o0 i0 : Nat)
        (rest : List Nat) (c0 : Clique),
      old = o0 :: rest →
      cc.get_index o0 = some i0 → cc.cliques[i0]? = some c0 →
      snode ∉ old → old.Nodup →
      (∀ n ∈ old, ∃ j, cc.get_index n = some j ∧ j < cc.cliques.length) →
      ∃ cc', cc.new_snode old snode = some cc' ∧
        cc'.get_index snode = some i0 ∧
        ∃ c, cc'.get_clique_by_index i0 = some c ∧ snode ∈ c.nodes) := by
  constructor
  · intro cc snode
    rfl
  · intro cc old snode o0 i0 rest c0 hold hj0 hc0 hso hnd hmem
    subst hold
    have hli : i0 < cc.cliques.length := (List.getElem?_eq_some_iff.mp hc0).1
    have hadd : cc.add_node_to_clique snode o0 = some
        { cc with
          cliques := cc.cliques.set i0 { c0 with nodes := c0.nodes ++ [snode] },
          index_map := hmInsert cc.index_map snode i0 } := by
      unfold CliqueCollection.add_node_to_clique
      rw [hj0]
      simp only [hc0]
    have hred : cc.new_snode (o0 :: rest) snode =
        (cc.add_node_to_clique snode o0).bind
          (fun cc1 => (o0 :: rest).foldlM (fun st n => st.remove_node n) cc1) :=
      rfl
    rw [hred, hadd]
    have h3 : ({ cc with
        cliques := cc.cliques.set i0 { c0 with nodes := c0.nodes ++ [snode] },
        index_map := hmInsert cc.index_map snode i0} :
          CliqueCollection).get_index snode = some i0 :=
      hmGet_insert_self _ _ _
    have h4 : ∀ n ∈ o0 :: rest, ∃ j, ({ cc with
        cliques := cc.cliques.set i0 { c0 with nodes := c0.nodes ++ [snode] },
        index_map := hmInsert cc.index_map snode i0} :
          CliqueCollection).get_index n = some j ∧
        j < (cc.cliques.set i0
          { c0 with nodes := c0.nodes ++ [snode] }).length := by
      intro n hn
      obtain ⟨jn, hjn, hjnl⟩ := hmem n hn
      have hns : n ≠ snode := fun h => hso (h ▸ hn)
      refine ⟨jn, ?_, ?_⟩
      · show hmGet (hmInsert cc.index_map snode i0) n = some jn
        rw [hmGet_insert_ne _ _ _ _ hns]
        exact hjn
      · simpa using hjnl
    have h5 : ∃ c, (cc.cliques.set i0
        { c0 with nodes := c0.nodes ++ [snode] })[i0]? = some c ∧
        snode ∈ c.nodes := by
      refine ⟨{ c0 with nodes := c0.nodes ++ [snode] }, ?_, ?_⟩
      · rw [List.getElem?_set_self (by simpa using hli)]
      · exact List.mem_append.mpr (Or.inr (List.mem_singleton.mpr rfl))
    exact new_snode_fold snode i0 (o0 :: rest) _ hso hnd h3 h4 h5

/-- Witness for C10 at a concrete collection: supernode 50 replaces the
members 10 and 11 of class 1. -/
theorem C10_new_snode_witness :
    ∃ cc', c10w.new_snode [10, 11] 50 = some cc' ∧
      cc'.get_index 50 = some 1 ∧
      ∃ c, cc'.get_clique_by_index 1 = some c ∧ 50 ∈ c.nodes :=
  C10_new_snode.2 c10w [10, 11] 50 10 1 [11] ⟨[100], [10, 11]⟩ rfl
    (by decide) (by decide) (by decide) (by decide)
    (by intro n hn; fin_cases hn <;> exact ⟨1, by decide, by decide⟩)
